import Mathlib

/-!
# Verification of the v-tools VM management client

Shallow embedding of the core logic of the `v-tools` repository
(`src/vtools/vm.py`, `src/vtools/device.py`, `src/vtools/snapshot.py`,
`src/vtools/query.py`, `src/vtools/vsphere.py`, and the legacy
`src/vtools.py`), together with theorems settling the specification
claims about power-state transitions, device allocation, snapshot
management, the OVF import pipeline and the generic query layer.

Remote interaction with the host is represented by an explicit list of
submitted mutating calls (`HostCall`); data read back from the host
(power state, device lists, snapshot trees, lease states) is passed in
as explicit arguments, mirroring how the Python code reads the
corresponding `vim` properties.
-/

namespace VTools

/-- Power states of a VM (`vim.VirtualMachine.PowerState`). -/
inductive PowerState where
  | poweredOn
  | poweredOff
  | suspended
deriving DecidableEq, Repr

/-- The fields of a `vim.vm.ConfigSpec` that the CPU/memory managers set
(`vm.py`: `CpuManager.number`, `CpuManager.cores_per_socket`,
`MemoryManager.size_in_mb`). A field left at `none` is not set. -/
structure ConfigSpec where
  numCPUs : Option Nat
  numCoresPerSocket : Option Nat
  memoryMB : Option Nat
deriving DecidableEq, Repr

/-- A mutating remote call submitted to the host.  Each constructor
corresponds to one of the task-producing invocations in the source. -/
inductive HostCall where
  | powerOnTask
  | powerOffTask
  | suspendTask
  | reconfigureTask (spec : ConfigSpec)
  | createSnapshotTask (name : String)
  | revertSnapshotTask (snapshotId : Nat)
  | removeSnapshotTask (snapshotId : Nat) (removeChildren : Bool)
  | createImportSpecCall
  | importVAppCall
  | pullFromUrlsCall
  | leaseCompleteCall
deriving DecidableEq, Repr

/-- The narrow error conditions raised synchronously by the library.
`invalidStateError` embeds `InvalidStateError` (raised in `vm.py` for
power-state preconditions and wrong-parent-VM snapshot operations). -/
inductive VtoolsError where
  | invalidStateError
deriving DecidableEq, Repr

/-! ## VM lifecycle state machine (`vm.py`, class `VM`) -/

/-- One attempt of `VM._invoke_power_on` (`vm.py` lines 132-140): if the
VM already reports `poweredOn` the function returns without submitting
anything; otherwise it submits the `PowerOn` task.  The result is the
list of mutating calls submitted by the attempt. -/
def invoke_power_on (power_state : PowerState) : List HostCall :=
  if power_state = PowerState.poweredOn then []
  else [HostCall.powerOnTask]

/-- One attempt of `VM._invoke_power_off` (`vm.py` lines 142-150). -/
def invoke_power_off (power_state : PowerState) : List HostCall :=
  if power_state = PowerState.poweredOff then []
  else [HostCall.powerOffTask]

/-- One attempt of `VM._invoke_suspend` (`vm.py` lines 152-160). -/
def invoke_suspend (power_state : PowerState) : List HostCall :=
  if power_state = PowerState.suspended then []
  else [HostCall.suspendTask]

/-- One polling attempt of `VM._wait_until_power_state_is` (`vm.py`
lines 162-174): the attempt succeeds exactly when the re-read power
state equals the expected one (otherwise `TryAgain` is raised and the
attempt is retried). -/
def wait_until_power_state_is (expected_state current_state : PowerState) : Bool :=
  current_state = expected_state

/-- Host-side effect of a submitted power task: the environment
semantics used to chain an invocation with the confirmation poll. -/
def apply_host_call (power_state : PowerState) : HostCall → PowerState
  | HostCall.powerOnTask => PowerState.poweredOn
  | HostCall.powerOffTask => PowerState.poweredOff
  | HostCall.suspendTask => PowerState.suspended
  | _ => power_state

/-- Embedding of `VM.power_on` (`vm.py` lines 113-115): invocation followed by the
state-confirmation poll.  Returns the submitted calls and whether the
first confirmation poll reports success. -/
def power_on (power_state : PowerState) : List HostCall × Bool :=
  let calls := invoke_power_on power_state
  let new_state := calls.foldl apply_host_call power_state
  (calls, wait_until_power_state_is PowerState.poweredOn new_state)

/-- Embedding of `VM.power_off` (`vm.py` lines 117-120). -/
def power_off (power_state : PowerState) : List HostCall × Bool :=
  let calls := invoke_power_off power_state
  let new_state := calls.foldl apply_host_call power_state
  (calls, wait_until_power_state_is PowerState.poweredOff new_state)

/-- Embedding of `VM.suspend` (`vm.py` lines 122-124). -/
def suspend (power_state : PowerState) : List HostCall × Bool :=
  let calls := invoke_suspend power_state
  let new_state := calls.foldl apply_host_call power_state
  (calls, wait_until_power_state_is PowerState.suspended new_state)

/-! ## CPU and memory reconfiguration (`vm.py`, `CpuManager` and
`MemoryManager`) -/

/-- Setter `CpuManager.number` (`vm.py` lines 185-193): requires the VM
to be powered off, otherwise raises `InvalidStateError` before any
remote call; on success submits one `Reconfigure` task with `numCPUs`
set. -/
def cpu_set_number (power_state : PowerState) (value : Nat) :
    Except VtoolsError (List HostCall) :=
  if power_state ≠ PowerState.poweredOff then
    Except.error VtoolsError.invalidStateError
  else
    Except.ok [HostCall.reconfigureTask
      { numCPUs := some value, numCoresPerSocket := none, memoryMB := none }]

/-- Setter `CpuManager.cores_per_socket` (`vm.py` lines 199-207). -/
def cpu_set_cores_per_socket (power_state : PowerState) (value : Nat) :
    Except VtoolsError (List HostCall) :=
  if power_state ≠ PowerState.poweredOff then
    Except.error VtoolsError.invalidStateError
  else
    Except.ok [HostCall.reconfigureTask
      { numCPUs := none, numCoresPerSocket := some value, memoryMB := none }]

/-- Setter `MemoryManager.size_in_mb` (`vm.py` lines 218-226). -/
def memory_set_size_in_mb (power_state : PowerState) (value : Nat) :
    Except VtoolsError (List HostCall) :=
  if power_state ≠ PowerState.poweredOff then
    Except.error VtoolsError.invalidStateError
  else
    Except.ok [HostCall.reconfigureTask
      { numCPUs := none, numCoresPerSocket := none, memoryMB := some value }]

/-! ## Generic query layer (`query.py`, `QueryMixin`) -/

/-- Embedding of `QueryMixin.list` (`query.py` lines 26-35): with no condition it
returns every item `_list_all` produced; with a condition it filters. -/
def QueryMixin_list {T : Type} (all_items : List T)
    (condition : Option (T → Bool)) : List T :=
  match condition with
  | none => all_items
  | some c => all_items.filter c

/-- Embedding of `QueryMixin.get` (`query.py` lines 37-41): iterates over
`_list_all()` and returns the first item satisfying the condition,
`None` if no item does. -/
def QueryMixin_get {T : Type} (all_items : List T) (condition : T → Bool) :
    Option T :=
  match all_items with
  | [] => none
  | item :: rest =>
      if condition item then some item else QueryMixin_get rest condition

/-! ## Device allocation engine (`device.py`, `vm.py` `CreateVMSpec`) -/

/-- A device attached to a VM, as seen by the allocation logic: its
host-assigned key and its controller-relative unit number. -/
structure VmDevice where
  key : Int
  unitNumber : Nat
deriving DecidableEq, Repr

/-- A SCSI controller device (`device.py`, class `Controller`, for a
`vim.vm.device.VirtualSCSIController`): its key, its own SCSI target
unit number (`scsiCtlrUnitNumber`, 7 by convention) and the keys of the
devices attached to it (the vim `device` list). -/
structure ScsiController where
  key : Int
  scsiCtlrUnitNumber : Nat
  device : List Int
deriving DecidableEq, Repr

/-- Embedding of `Controller._get_used_units` (`device.py` lines 125-134): the
controller's own SCSI target number followed by the unit numbers of
every VM device whose key appears in the controller's attached-device
list. -/
def get_used_units (c : ScsiController) (vm_devices : List VmDevice) : List Nat :=
  c.scsiCtlrUnitNumber ::
    (vm_devices.filter (fun d => c.device.contains d.key)).map VmDevice.unitNumber

/-- The unit numbers occupied by the devices attached to the
controller: the tail of `get_used_units`, i.e. the used units without
the controller's own SCSI target number. -/
def attached_units (c : ScsiController) (vm_devices : List VmDevice) : List Nat :=
  (vm_devices.filter (fun d => c.device.contains d.key)).map VmDevice.unitNumber

/-- The `while used_units[index] == index` walk at the end of
`Controller.next_free_unit` (`device.py` lines 120-123) and of
`CreateVMSpec._get_next_free_unit` (`vm.py` lines 551-554): starting
from `index`, skip every position whose value equals its index and
return the first index that disagrees.  (In the source the walk is only
reached when the sorted list is not a perfect `0..n-1` run, so it never
runs past the end of the list; returning `index` at the end makes the
Lean function total.) -/
def scan_first_gap : List Nat → Nat → Nat
  | [], index => index
  | u :: rest, index =>
      if u = index then scan_first_gap rest (index + 1) else index

/-- The shared unit-allocation algorithm, the body of
`CreateVMSpec._get_next_free_unit` (`vm.py` lines 534-554) and of
`Controller.next_free_unit` (`device.py` lines 106-123) once the used
units are collected: fail (return `none`, Python `None`) if the
controller already holds `max_devices` devices; otherwise sort the
occupied units ascending (Python `list.sort()`, embedded as
`insertionSort (· ≤ ·)`) and return `last_index + 1` for a perfect
`0..n-1` run, else the first index disagreeing with its value.
`max_devices` is `find_device_option_by_type(...).devices.max`; that
helper is not part of the sources, so per the spec the host-capability
maximum is an opaque parameter here. -/
def get_next_free_unit (max_devices : Nat) (used_units : List Nat) : Option Nat :=
  if max_devices ≤ used_units.length then none
  else
    let sorted_units := List.insertionSort (· ≤ ·) used_units
    let last_index := sorted_units.length - 1
    if sorted_units.getD last_index 0 = last_index then some (last_index + 1)
    else some (scan_first_gap sorted_units 0)

/-- Embedding of `Controller.next_free_unit` (`device.py` lines 106-123). -/
def next_free_unit (max_devices : Nat) (c : ScsiController)
    (vm_devices : List VmDevice) : Option Nat :=
  get_next_free_unit max_devices (get_used_units c vm_devices)

/-! ## SCSI controller addition (`vm.py`) -/

/-- The device part of the `VirtualDeviceSpec` built by
`ScsiControllerManager.add`: placeholder key and assigned bus number. -/
structure NewControllerDevice where
  key : Int
  busNumber : Nat
deriving DecidableEq, Repr

/-- Embedding of `ScsiControllerManager.add` (`vm.py` lines 239-250): lists the
existing SCSI controllers of the VM, then sets the new controller's key
to `-1` and its bus number to `len(existing_scsi_controllers) + 1`
before submitting the reconfiguration. -/
def scsi_controller_manager_add
    (existing_scsi_controllers : List ScsiController) : NewControllerDevice :=
  { key := -1, busNumber := existing_scsi_controllers.length + 1 }

/-- Embedding of `CreateVMSpec._get_next_free_scsi_bus` (`vm.py` lines 502-504): the
incrementing bus counter used for batched creation specs.  Takes the
current `_last_used_scsi_bus` (initialised to `0` in `__init__`) and
returns the new counter value together with the assigned bus number. -/
def get_next_free_scsi_bus (last_used_scsi_bus : Nat) : Nat × Nat :=
  (last_used_scsi_bus + 1, last_used_scsi_bus + 1)

/-! ## Snapshot trees (`snapshot.py`, `vm.py`, legacy `vtools.py`) -/

/-- A node of the host-reported snapshot forest
(`vim.vm.SnapshotTree`): snapshot identifier, name, and ordered child
list. -/
inductive SnapshotTree where
  | node (snapId : Nat) (name : String) (children : List SnapshotTree)
deriving Repr

/-- The `childSnapshotList` of a snapshot tree node. -/
def SnapshotTree.children : SnapshotTree → List SnapshotTree
  | .node _ _ cs => cs

/-- The name of a snapshot tree node. -/
def SnapshotTree.name : SnapshotTree → String
  | .node _ nm _ => nm

/-- The snapshot identifier of a snapshot tree node. -/
def SnapshotTree.snapId : SnapshotTree → Nat
  | .node i _ _ => i

/-- Embedding of `flatten_snapshot_tree` (`snapshot.py` lines 7-16): walks
`from_list` in order, appending each node to `to_list` and recursing
into its children before moving to the next sibling.  The Python
function mutates `to_list`; the embedding passes the accumulator
explicitly and returns its final value. -/
def flatten_snapshot_tree :
    List SnapshotTree → List SnapshotTree → List SnapshotTree
  | [], to_list => to_list
  | SnapshotTree.node i nm cs :: rest, to_list =>
      flatten_snapshot_tree rest
        (flatten_snapshot_tree cs (to_list ++ [SnapshotTree.node i nm cs]))

/-- The pure pre-order traversal of a snapshot forest: each node
followed by the traversal of its children, then its later siblings.
Used to reason about `flatten_snapshot_tree` (they agree, see
`flatten_snapshot_tree_eq_preorder`). -/
def preorder_forest : List SnapshotTree → List SnapshotTree
  | [] => []
  | SnapshotTree.node i nm cs :: rest =>
      SnapshotTree.node i nm cs :: (preorder_forest cs ++ preorder_forest rest)

/-- Total number of nodes of a snapshot forest. -/
def size_forest : List SnapshotTree → Nat
  | [] => 0
  | SnapshotTree.node _ _ cs :: rest => 1 + size_forest cs + size_forest rest

/-- Embedding of `find_snapshot_tree` (`snapshot.py` lines 19-34): depth-first search
across the forest for the node whose `snapshot` reference matches
`by_snapshot` (snapshot references are embedded as identifiers). -/
def find_snapshot_tree : List SnapshotTree → Nat → Option SnapshotTree
  | [], _ => none
  | SnapshotTree.node i nm cs :: rest, by_snapshot =>
      if i = by_snapshot then some (SnapshotTree.node i nm cs)
      else
        match find_snapshot_tree cs by_snapshot with
        | some matched_child => some matched_child
        | none => find_snapshot_tree rest by_snapshot

/-- Proposition that `d` is a proper descendant of `t` in the snapshot forest: either a
direct child or a descendant of a child. -/
inductive Desc : SnapshotTree → SnapshotTree → Prop
  | child {t c : SnapshotTree} : c ∈ t.children → Desc c t
  | step {t c d : SnapshotTree} : c ∈ t.children → Desc d c → Desc d t

/-- Proposition that `t` occurs somewhere in the forest `f`: as a root or as a
descendant of a root. -/
def OccursInForest (t : SnapshotTree) (f : List SnapshotTree) : Prop :=
  t ∈ f ∨ ∃ u ∈ f, Desc t u

/-! ## Snapshot manager operations (`vm.py`, `SnapshotManager`;
legacy `vtools.py`, class `VM`) -/

/-- A snapshot handle as held by `Snapshot` objects: the identity of the
VM recorded as its parent (`snapshot.vim_obj.vm`) and the snapshot
identifier. -/
structure SnapshotHandle where
  parentVm : Nat
  snapshotId : Nat
deriving DecidableEq, Repr

/-- Embedding of `VM.revert_to_snapshot` (`vm.py` lines 126-130): if the snapshot's
recorded parent VM differs from the VM the method is invoked on, raise
`InvalidStateError` before any remote call; otherwise submit the
`Revert` task. -/
def revert_to_snapshot (self_vm : Nat) (snapshot : SnapshotHandle) :
    Except VtoolsError (List HostCall) :=
  if snapshot.parentVm ≠ self_vm then
    Except.error VtoolsError.invalidStateError
  else
    Except.ok [HostCall.revertSnapshotTask snapshot.snapshotId]

/-- Embedding of `SnapshotManager.delete` (`vm.py` lines 341-345): same
wrong-parent-VM guard, then submits `Remove(False)` (children are not
removed). -/
def snapshot_manager_delete (self_vm : Nat) (snapshot : SnapshotHandle) :
    Except VtoolsError (List HostCall) :=
  if snapshot.parentVm ≠ self_vm then
    Except.error VtoolsError.invalidStateError
  else
    Except.ok [HostCall.removeSnapshotTask snapshot.snapshotId false]

/-- Embedding of `SnapshotManager.create` (`vm.py` lines 322-339): submits the
`CreateSnapshot` task unconditionally (there is no duplicate-name
pre-check on this path), waits for it, and then resolves the new node
by searching the refreshed snapshot tree.  `refreshed_root` is the
host's snapshot forest after the task and `new_snapshot_id` the task
result. -/
def snapshot_manager_create (name : String)
    (refreshed_root : List SnapshotTree) (new_snapshot_id : Nat) :
    List HostCall × Option SnapshotTree :=
  ([HostCall.createSnapshotTask name],
   find_snapshot_tree refreshed_root new_snapshot_id)

/-- Embedding of `list_snapshots_recursively` (legacy `vtools.py` lines 164-169):
the same accumulate-then-recurse walk as `flatten_snapshot_tree`, with
the accumulator as first argument. -/
def list_snapshots_recursively :
    List SnapshotTree → List SnapshotTree → List SnapshotTree
  | snapshot_data, [] => snapshot_data
  | snapshot_data, SnapshotTree.node i nm cs :: rest =>
      list_snapshots_recursively
        (list_snapshots_recursively
          (snapshot_data ++ [SnapshotTree.node i nm cs]) cs) rest

/-- The scan inside `VM.get_snapshot` (legacy `vtools.py` lines
222-227): first snapshot in the flattened list bearing the requested
name. -/
def first_snapshot_named : List SnapshotTree → String → Option SnapshotTree
  | [], _ => none
  | s :: rest, name =>
      if s.name = name then some s else first_snapshot_named rest name

/-- Embedding of `VM.get_snapshot` (legacy `vtools.py` lines 222-227): flattens the
VM's own snapshot forest and returns the first snapshot with the given
name, `None` if absent. -/
def vm_get_snapshot (root_snapshot_list : List SnapshotTree) (name : String) :
    Option SnapshotTree :=
  first_snapshot_named (list_snapshots_recursively [] root_snapshot_list) name

/-- Embedding of `VM.create_snapshot` (legacy `vtools.py` lines 229-239): if
`get_snapshot(name)` finds a same-named snapshot in this VM's own tree,
print a message and return without submitting anything; otherwise
submit the `CreateSnapshot` task.  The boolean reports whether the
creation was submitted. -/
def vm_create_snapshot (root_snapshot_list : List SnapshotTree)
    (name : String) : List HostCall × Bool :=
  if (vm_get_snapshot root_snapshot_list name).isSome then ([], false)
  else ([HostCall.createSnapshotTask name], true)

/-! ## OVF import pipeline (`vsphere.py`, `vm.py` `OvfImportSpec`) -/

/-- States of an HTTP NFC transfer lease (`vim.HttpNfcLease.State`). -/
inductive LeaseState where
  | initializing
  | ready
  | error
deriving DecidableEq, Repr

/-- The retry loop of `wait_until_http_nfc_lease_ready` inside
`create_http_nfc_lease` (`vsphere.py` lines 190-197): tenacity performs
up to 6 attempts with a fixed 5-time-unit wait between them, so attempt
`i` (counting from 0) reads the lease state at time `5 * i`.  Returns
the time of the first attempt that observes `ready`, `none` if all
attempts are exhausted (tenacity then raises, aborting the import). -/
def wait_until_http_nfc_lease_ready_from (lease_state_at : Nat → LeaseState)
    (attempt : Nat) : Nat → Option Nat
  | 0 => none
  | remaining + 1 =>
      if lease_state_at (5 * attempt) = LeaseState.ready then some (5 * attempt)
      else wait_until_http_nfc_lease_ready_from lease_state_at (attempt + 1) remaining

/-- The full bounded poll: 6 attempts starting at attempt 0. -/
def wait_until_http_nfc_lease_ready (lease_state_at : Nat → LeaseState) :
    Option Nat :=
  wait_until_http_nfc_lease_ready_from lease_state_at 0 6

/-- Embedding of `create_http_nfc_lease` (`vsphere.py` lines 185-199): submits
`ImportVApp` to acquire the lease, then polls it for readiness.
Returns the submitted calls and whether the lease became ready within
the bounded poll. -/
def create_http_nfc_lease (lease_state_at : Nat → LeaseState) :
    List HostCall × Bool :=
  ([HostCall.importVAppCall],
   (wait_until_http_nfc_lease_ready lease_state_at).isSome)

/-- Embedding of `OvfImportSpec.create_vm` (`vm.py` lines 561-580): negotiates the
spec for the import (`create_import_spec`), acquires the lease with the bounded
readiness poll, and only then performs the pull-mode transfer
(`deploy_vm_with_pull_mode`) and completes the lease.  If the lease
never becomes ready the poll raises and the import aborts with the
remaining phases never invoked. -/
def ovf_import_create_vm (lease_state_at : Nat → LeaseState) :
    List HostCall × Bool :=
  let lease := create_http_nfc_lease lease_state_at
  if lease.2 then
    (HostCall.createImportSpecCall :: lease.1 ++
      [HostCall.pullFromUrlsCall, HostCall.leaseCompleteCall], true)
  else
    (HostCall.createImportSpecCall :: lease.1, false)

/-! ## Concrete instances used in witnesses and counterexamples -/

/-- Demonstration forest for the C7 witness: one root with two
branches, each of depth 3 in total. -/
def snapshot_forest_demo : List SnapshotTree :=
  [SnapshotTree.node 1 "root"
    [SnapshotTree.node 2 "a" [SnapshotTree.node 4 "a1" []],
     SnapshotTree.node 3 "b" [SnapshotTree.node 5 "b1" []]]]

/-- The parent node used in the C7 witness. -/
def snapshot_demo_parent : SnapshotTree :=
  SnapshotTree.node 2 "a" [SnapshotTree.node 4 "a1" []]

/-- The descendant node used in the C7 witness. -/
def snapshot_demo_descendant : SnapshotTree :=
  SnapshotTree.node 4 "a1" []

/-- A SCSI controller (target number 7) with seven attached device
keys, for the C3 counterexample. -/
def controller_run7_demo : ScsiController :=
  { key := 1000, scsiCtlrUnitNumber := 7, device := [1, 2, 3, 4, 5, 6, 7] }

/-- Seven disks occupying the contiguous unit run `0..6` on
`controller_run7_demo`. -/
def vm_devices_run7_demo : List VmDevice :=
  [{ key := 1, unitNumber := 0 }, { key := 2, unitNumber := 1 },
   { key := 3, unitNumber := 2 }, { key := 4, unitNumber := 3 },
   { key := 5, unitNumber := 4 }, { key := 6, unitNumber := 5 },
   { key := 7, unitNumber := 6 }]

/-- A SCSI controller with three attached device keys, for the C3
witness. -/
def controller_run3_demo : ScsiController :=
  { key := 1000, scsiCtlrUnitNumber := 7, device := [1, 2, 3] }

/-- Three disks occupying the contiguous unit run `0..2`. -/
def vm_devices_run3_demo : List VmDevice :=
  [{ key := 1, unitNumber := 0 }, { key := 2, unitNumber := 1 },
   { key := 3, unitNumber := 2 }]

/-- A SCSI controller with two attached device keys, for the C3
witness. -/
def controller_gap_demo : ScsiController :=
  { key := 1000, scsiCtlrUnitNumber := 7, device := [1, 2] }

/-- Two disks occupying units `0` and `2` (unit `1` free). -/
def vm_devices_gap_demo : List VmDevice :=
  [{ key := 1, unitNumber := 0 }, { key := 2, unitNumber := 2 }]

/-- A SCSI controller with one attached device key, for the C4
witness. -/
def controller_full_demo : ScsiController :=
  { key := 1000, scsiCtlrUnitNumber := 7, device := [1] }

/-- One disk at unit 0; together with the controller's own target
number this fills a capacity of 2. -/
def vm_devices_full_demo : List VmDevice :=
  [{ key := 1, unitNumber := 0 }]

/-! ## Theorems -/

/-- C5: for every VM already in power state `S` (each of the three
states), invoking the transition to `S` submits no mutating call to the
host and the operation reports success (the confirmation poll passes
immediately); this holds both for the full transitions and for the
underlying invocation bodies. -/
theorem power_transition_idempotent :
    power_on PowerState.poweredOn = ([], true) ∧
    power_off PowerState.poweredOff = ([], true) ∧
    suspend PowerState.suspended = ([], true) ∧
    invoke_power_on PowerState.poweredOn = [] ∧
    invoke_power_off PowerState.poweredOff = [] ∧
    invoke_suspend PowerState.suspended = [] := by
  refine ⟨rfl, rfl, rfl, rfl, rfl, rfl⟩

/-- C8: for every VM not in the `poweredOff` state, the CPU-count,
cores-per-socket and memory-size setters fail with `InvalidStateError`
and submit no reconfiguration; for a powered-off VM each submits
exactly one `Reconfigure` task with the corresponding field set. -/
theorem cpu_memory_edit_requires_powered_off (s : PowerState) (v : Nat)
    (h : s ≠ PowerState.poweredOff) :
    cpu_set_number s v = Except.error VtoolsError.invalidStateError ∧
    cpu_set_cores_per_socket s v = Except.error VtoolsError.invalidStateError ∧
    memory_set_size_in_mb s v = Except.error VtoolsError.invalidStateError ∧
    cpu_set_number PowerState.poweredOff v =
      Except.ok [HostCall.reconfigureTask
        { numCPUs := some v, numCoresPerSocket := none, memoryMB := none }] ∧
    cpu_set_cores_per_socket PowerState.poweredOff v =
      Except.ok [HostCall.reconfigureTask
        { numCPUs := none, numCoresPerSocket := some v, memoryMB := none }] ∧
    memory_set_size_in_mb PowerState.poweredOff v =
      Except.ok [HostCall.reconfigureTask
        { numCPUs := none, numCoresPerSocket := none, memoryMB := some v }] := by
  simp [cpu_set_number, cpu_set_cores_per_socket, memory_set_size_in_mb, h]

/-- C8 witness: the theorem applied to a powered-on VM setting 2 CPUs. -/
theorem cpu_memory_edit_requires_powered_off_witness :
    cpu_set_number PowerState.poweredOn 2 =
      Except.error VtoolsError.invalidStateError ∧
    cpu_set_cores_per_socket PowerState.poweredOn 2 =
      Except.error VtoolsError.invalidStateError ∧
    memory_set_size_in_mb PowerState.poweredOn 2 =
      Except.error VtoolsError.invalidStateError ∧
    cpu_set_number PowerState.poweredOff 2 =
      Except.ok [HostCall.reconfigureTask
        { numCPUs := some 2, numCoresPerSocket := none, memoryMB := none }] ∧
    cpu_set_cores_per_socket PowerState.poweredOff 2 =
      Except.ok [HostCall.reconfigureTask
        { numCPUs := none, numCoresPerSocket := some 2, memoryMB := none }] ∧
    memory_set_size_in_mb PowerState.poweredOff 2 =
      Except.ok [HostCall.reconfigureTask
        { numCPUs := none, numCoresPerSocket := none, memoryMB := some 2 }] :=
  cpu_memory_edit_requires_powered_off PowerState.poweredOn 2 (by decide)

/-- C6: reverting to, or deleting, a snapshot whose recorded parent VM
differs from the VM the operation is invoked on fails with
`InvalidStateError`; no remote call is submitted and the operation never
silently succeeds. -/
theorem snapshot_wrong_parent_vm_rejected (self_vm : Nat)
    (snapshot : SnapshotHandle) (h : snapshot.parentVm ≠ self_vm) :
    revert_to_snapshot self_vm snapshot =
      Except.error VtoolsError.invalidStateError ∧
    snapshot_manager_delete self_vm snapshot =
      Except.error VtoolsError.invalidStateError := by
  simp [revert_to_snapshot, snapshot_manager_delete, h]

/-- C6 witness: the theorem applied to snapshot 5 of VM 1, operated on
from VM 2. -/
theorem snapshot_wrong_parent_vm_rejected_witness :
    revert_to_snapshot 2 { parentVm := 1, snapshotId := 5 } =
      Except.error VtoolsError.invalidStateError ∧
    snapshot_manager_delete 2 { parentVm := 1, snapshotId := 5 } =
      Except.error VtoolsError.invalidStateError :=
  snapshot_wrong_parent_vm_rejected 2 { parentVm := 1, snapshotId := 5 } (by decide)

/-- C1 counterexample: on a VM with no SCSI controllers,
`ScsiControllerManager.add` assigns bus number `1`, not `0`, and the
batched-creation counter of `CreateVMSpec` also yields `1` on its first
use. -/
theorem scsi_bus_starts_at_one_counterexample :
    ¬ (scsi_controller_manager_add []).busNumber = 0 ∧
    (scsi_controller_manager_add []).busNumber = 1 ∧
    (get_next_free_scsi_bus 0).2 = 1 := by
  refine ⟨by decide, rfl, rfl⟩

/-- C1 amended: the bus number assigned to a newly added SCSI
controller is the count of existing SCSI controllers of that kind plus
one (so `1` when none exist), with the placeholder key `-1`; the
batched-creation counter likewise yields `last + 1`. -/
theorem scsi_bus_number_assignment (existing : List ScsiController) :
    (scsi_controller_manager_add existing).busNumber = existing.length + 1 ∧
    (scsi_controller_manager_add existing).key = -1 ∧
    ∀ last_used : Nat, (get_next_free_scsi_bus last_used).2 = last_used + 1 :=
  ⟨rfl, rfl, fun _ => rfl⟩

/-- Helper for C10: `QueryMixin.get` returns `None` when no item
satisfies the condition. -/
theorem QueryMixin_get_eq_none {T : Type} (items : List T)
    (condition : T → Bool) (h : ∀ y ∈ items, condition y = false) :
    QueryMixin_get items condition = none := by
  induction items with
  | nil => rfl
  | cons a rest ih =>
      have ha := h a (by simp)
      simp only [QueryMixin_get, ha, Bool.false_eq_true, if_false]
      exact ih (fun y hy => h y (by simp [hy]))

/-- Helper for C10: `QueryMixin.get` returns the first listed item
satisfying the condition. -/
theorem QueryMixin_get_first {T : Type} (l₁ l₂ : List T) (x : T)
    (condition : T → Bool) (hbefore : ∀ y ∈ l₁, condition y = false)
    (hx : condition x = true) :
    QueryMixin_get (l₁ ++ x :: l₂) condition = some x := by
  induction l₁ with
  | nil => simp [QueryMixin_get, hx]
  | cons a rest ih =>
      have ha := hbefore a (by simp)
      simp only [List.cons_append, QueryMixin_get, ha, Bool.false_eq_true, if_false]
      exact ih (fun y hy => hbefore y (by simp [hy]))

/-- C10: for every entity manager built on the generic query layer and
every predicate, `get` returns the first listed item satisfying the
predicate, returns `None` (it does not raise) when no item satisfies
it, and `list` without a predicate returns every item. -/
theorem query_mixin_get_list_spec {T : Type} (all_items l₁ l₂ : List T)
    (x : T) (condition : T → Bool)
    (hsplit : all_items = l₁ ++ x :: l₂)
    (hbefore : ∀ y ∈ l₁, condition y = false)
    (hx : condition x = true) :
    QueryMixin_get all_items condition = some x ∧
    (∀ (items : List T) (c : T → Bool), (∀ y ∈ items, c y = false) →
      QueryMixin_get items c = none) ∧
    (∀ items : List T, QueryMixin_list items none = items) := by
  refine ⟨?_, fun items c h => QueryMixin_get_eq_none items c h, fun _ => rfl⟩
  rw [hsplit]
  exact QueryMixin_get_first l₁ l₂ x condition hbefore hx

/-- C10 witness: the theorem applied to the list `[1, 2, 4]` with the
predicate "is even": `get` returns the first even item `2`. -/
theorem query_mixin_get_list_spec_witness :
    QueryMixin_get [1, 2, 4] (fun n : Nat => n % 2 = 0) = some 2 ∧
    (∀ (items : List Nat) (c : Nat → Bool), (∀ y ∈ items, c y = false) →
      QueryMixin_get items c = none) ∧
    (∀ items : List Nat, QueryMixin_list items none = items) :=
  query_mixin_get_list_spec [1, 2, 4] [1] [4] 2
    (fun n : Nat => n % 2 = 0) (by decide) (by decide) (by decide)

/-- Helper for C9: if no polled attempt observes a ready lease, the
bounded wait is exhausted and reports failure. -/
theorem wait_until_ready_exhausted (lease_state_at : Nat → LeaseState) :
    ∀ (remaining attempt : Nat),
      (∀ j, j < remaining → lease_state_at (5 * (attempt + j)) ≠ LeaseState.ready) →
      wait_until_http_nfc_lease_ready_from lease_state_at attempt remaining = none := by
  intro remaining
  induction remaining with
  | zero => intro attempt _; rfl
  | succ r ih =>
      intro attempt h
      have h0 : lease_state_at (5 * attempt) ≠ LeaseState.ready := by
        have := h 0 (by omega)
        simpa using this
      simp only [wait_until_http_nfc_lease_ready_from, h0, if_false]
      exact ih (attempt + 1) (fun j hj => by
        have := h (j + 1) (by omega)
        have harith : attempt + (j + 1) = attempt + 1 + j := by omega
        rwa [harith] at this)

/-- C9: if the transfer lease never reaches `ready` at any of the 6
polling attempts spaced 5 time-units apart (times 0, 5, ..., 25), the
OVF import fails and the pull-mode transfer is never invoked. -/
theorem ovf_import_lease_timeout (lease_state_at : Nat → LeaseState)
    (h : ∀ i, i < 6 → lease_state_at (5 * i) ≠ LeaseState.ready) :
    (ovf_import_create_vm lease_state_at).2 = false ∧
    HostCall.pullFromUrlsCall ∉ (ovf_import_create_vm lease_state_at).1 := by
  have hnone : wait_until_http_nfc_lease_ready lease_state_at = none :=
    wait_until_ready_exhausted lease_state_at 6 0 (fun j hj => by
      have := h j hj
      simpa using this)
  simp [ovf_import_create_vm, create_http_nfc_lease,
    wait_until_http_nfc_lease_ready] at hnone ⊢
  simp [hnone]

/-- C9 witness: the theorem applied to a lease that stays
`initializing` forever. -/
theorem ovf_import_lease_timeout_witness :
    (ovf_import_create_vm (fun _ => LeaseState.initializing)).2 = false ∧
    HostCall.pullFromUrlsCall ∉
      (ovf_import_create_vm (fun _ => LeaseState.initializing)).1 :=
  ovf_import_lease_timeout (fun _ => LeaseState.initializing) (by decide)

/-! ### Snapshot tree lemmas -/

/-- The accumulator-passing `flatten_snapshot_tree` computes the
pre-order traversal appended to the accumulator. -/
theorem flatten_snapshot_tree_eq_preorder :
    ∀ (from_list to_list : List SnapshotTree),
      flatten_snapshot_tree from_list to_list =
        to_list ++ preorder_forest from_list
  | [], to_list => by simp [flatten_snapshot_tree, preorder_forest]
  | SnapshotTree.node i nm cs :: rest, to_list => by
      simp only [flatten_snapshot_tree, preorder_forest,
        flatten_snapshot_tree_eq_preorder cs,
        flatten_snapshot_tree_eq_preorder rest, List.append_assoc,
        List.singleton_append, List.cons_append, List.nil_append]

/-- Legacy `list_snapshots_recursively` performs the same walk. -/
theorem list_snapshots_recursively_eq_preorder :
    ∀ (snapshot_data snapshots : List SnapshotTree),
      list_snapshots_recursively snapshot_data snapshots =
        snapshot_data ++ preorder_forest snapshots
  | snapshot_data, [] => by
      simp [list_snapshots_recursively, preorder_forest]
  | snapshot_data, SnapshotTree.node i nm cs :: rest => by
      simp only [list_snapshots_recursively, preorder_forest,
        list_snapshots_recursively_eq_preorder _ cs,
        list_snapshots_recursively_eq_preorder _ rest, List.append_assoc,
        List.singleton_append, List.cons_append, List.nil_append]

/-- The pre-order traversal visits every node exactly once: its length
is the node count of the forest. -/
theorem preorder_forest_length :
    ∀ f : List SnapshotTree, (preorder_forest f).length = size_forest f
  | [] => by simp [preorder_forest, size_forest]
  | SnapshotTree.node i nm cs :: rest => by
      simp only [preorder_forest, size_forest, List.length_cons,
        List.length_append, preorder_forest_length cs,
        preorder_forest_length rest]
      omega

/-- A root of the forest heads a contiguous segment of the pre-order
traversal consisting of itself followed by the traversal of its
children. -/
theorem preorder_forest_decomp_of_mem :
    ∀ (f : List SnapshotTree) (t : SnapshotTree), t ∈ f →
      ∃ l₁ l₂, preorder_forest f =
        l₁ ++ (t :: preorder_forest t.children) ++ l₂
  | [], t, h => absurd h (List.not_mem_nil t)
  | SnapshotTree.node i nm cs :: rest, t, h => by
      rcases List.mem_cons.mp h with rfl | hmem
      · exact ⟨[], preorder_forest rest, by
          simp [preorder_forest, SnapshotTree.children]⟩
      · obtain ⟨l₁, l₂, hl⟩ := preorder_forest_decomp_of_mem rest t hmem
        refine ⟨SnapshotTree.node i nm cs :: (preorder_forest cs ++ l₁), l₂, ?_⟩
        simp [preorder_forest, hl]

/-- A descendant of `t` heads a contiguous segment of the pre-order
traversal of `t`'s children. -/
theorem preorder_forest_decomp_of_desc {t d : SnapshotTree} (h : Desc d t) :
    ∃ l₁ l₂, preorder_forest t.children =
      l₁ ++ (d :: preorder_forest d.children) ++ l₂ := by
  induction h with
  | @child t c hc => exact preorder_forest_decomp_of_mem _ _ hc
  | @step t c d hc _ ih =>
      obtain ⟨a, b, hab⟩ := ih
      obtain ⟨a', b', hab'⟩ := preorder_forest_decomp_of_mem _ _ hc
      refine ⟨a' ++ c :: a, b ++ b', ?_⟩
      rw [hab', hab]
      simp [List.append_assoc]

/-- Any node occurring in the forest heads a contiguous segment of the
pre-order traversal. -/
theorem preorder_forest_decomp_of_occurs {t : SnapshotTree}
    {f : List SnapshotTree} (h : OccursInForest t f) :
    ∃ l₁ l₂, preorder_forest f =
      l₁ ++ (t :: preorder_forest t.children) ++ l₂ := by
  rcases h with hmem | ⟨u, hu, hdesc⟩
  · exact preorder_forest_decomp_of_mem f t hmem
  · obtain ⟨a', b', h1⟩ := preorder_forest_decomp_of_mem f u hu
    obtain ⟨a, b, h2⟩ := preorder_forest_decomp_of_desc hdesc
    refine ⟨a' ++ u :: a, b ++ b', ?_⟩
    rw [h1, h2]
    simp [List.append_assoc]

/-- C7: flattening a snapshot forest (as `SnapshotManager._list_all`
does, starting from an empty accumulator) yields a sequence whose
length equals the total node count of every forest, and which is a
pre-order traversal: any node `t` occurring in the forest appears at a
position strictly before every one of its descendants `d`. -/
theorem flatten_preorder_traversal (f : List SnapshotTree)
    (t d : SnapshotTree) (hocc : OccursInForest t f) (hdesc : Desc d t) :
    (∀ g : List SnapshotTree,
      (flatten_snapshot_tree g []).length = size_forest g) ∧
    ∃ l₁ l₂, flatten_snapshot_tree f [] = l₁ ++ t :: l₂ ∧ d ∈ l₂ := by
  have hflat : ∀ g : List SnapshotTree,
      flatten_snapshot_tree g [] = preorder_forest g := fun g => by
    simp [flatten_snapshot_tree_eq_preorder g []]
  refine ⟨fun g => by rw [hflat g]; exact preorder_forest_length g, ?_⟩
  obtain ⟨l₁, l₂, hl⟩ := preorder_forest_decomp_of_occurs hocc
  obtain ⟨a, b, hd2⟩ := preorder_forest_decomp_of_desc hdesc
  refine ⟨l₁, preorder_forest t.children ++ l₂, ?_, ?_⟩
  · rw [hflat f, hl]; simp
  · rw [hd2]; simp

/-- C7 witness: the theorem applied to the depth-3 branching forest,
with parent node 2 and its descendant node 4. -/
theorem flatten_preorder_traversal_witness :
    (∀ g : List SnapshotTree,
      (flatten_snapshot_tree g []).length = size_forest g) ∧
    ∃ l₁ l₂, flatten_snapshot_tree snapshot_forest_demo [] =
      l₁ ++ snapshot_demo_parent :: l₂ ∧ snapshot_demo_descendant ∈ l₂ :=
  flatten_preorder_traversal snapshot_forest_demo snapshot_demo_parent
    snapshot_demo_descendant
    (Or.inr ⟨SnapshotTree.node 1 "root"
        [SnapshotTree.node 2 "a" [SnapshotTree.node 4 "a1" []],
         SnapshotTree.node 3 "b" [SnapshotTree.node 5 "b1" []]],
      List.Mem.head _, Desc.child (List.Mem.head _)⟩)
    (Desc.child (List.Mem.head _))

/-! ### Snapshot creation duplicate-name guard -/

/-- Helper for C2: the first-named scan finds a snapshot exactly when
one with that name is in the list. -/
theorem first_snapshot_named_isSome_iff :
    ∀ (l : List SnapshotTree) (name : String),
      (first_snapshot_named l name).isSome ↔ ∃ s ∈ l, s.name = name
  | [], name => by simp [first_snapshot_named]
  | s :: rest, name => by
      by_cases hs : s.name = name
      · simp [first_snapshot_named, hs]
      · simp only [first_snapshot_named, hs, if_false]
        rw [first_snapshot_named_isSome_iff rest name]
        simp [hs]

/-- Helper for C2: `VM.get_snapshot` finds a snapshot exactly when one
with that name occurs anywhere in the VM's own flattened tree. -/
theorem vm_get_snapshot_isSome_iff (root_snapshot_list : List SnapshotTree)
    (name : String) :
    (vm_get_snapshot root_snapshot_list name).isSome ↔
      ∃ s ∈ preorder_forest root_snapshot_list, s.name = name := by
  unfold vm_get_snapshot
  rw [list_snapshots_recursively_eq_preorder, List.nil_append]
  exact first_snapshot_named_isSome_iff _ name

/-- C2 counterexample: `SnapshotManager.create` (`vtools/vm.py`)
performs no duplicate-name pre-check.  On a VM whose snapshot tree
already contains a snapshot named "s1", creating "s1" again still
submits the remote `CreateSnapshot` call instead of rejecting it. -/
theorem snapshot_manager_create_no_precheck_counterexample :
    (∃ s ∈ preorder_forest [SnapshotTree.node 1 "s1" []], s.name = "s1") ∧
    (snapshot_manager_create "s1" [SnapshotTree.node 1 "s1" []] 1).1 =
      [HostCall.createSnapshotTask "s1"] := by
  refine ⟨⟨SnapshotTree.node 1 "s1" [], ?_, rfl⟩, rfl⟩
  simp [preorder_forest]

/-- C2 amended: the legacy `VM.create_snapshot` entry point
(`vtools.py`) rejects creation with no remote call when a same-named
snapshot exists anywhere in that VM's own snapshot tree, and a
same-named snapshot in a different VM's tree never triggers the
rejection (creation proceeds); the newer `SnapshotManager.create`
entry point (`vtools/vm.py`) performs no duplicate-name pre-check and
always submits the creation call. -/
theorem vm_create_snapshot_duplicate_guard :
    (∀ (root_snapshot_list : List SnapshotTree) (name : String),
      (∃ s ∈ preorder_forest root_snapshot_list, s.name = name) →
      vm_create_snapshot root_snapshot_list name = ([], false)) ∧
    (∀ (world : Nat → List SnapshotTree) (v u : Nat) (name : String)
        (s : SnapshotTree),
      (∀ x ∈ preorder_forest (world v), x.name ≠ name) →
      u ≠ v → s ∈ preorder_forest (world u) → s.name = name →
      vm_create_snapshot (world v) name =
        ([HostCall.createSnapshotTask name], true)) ∧
    (∀ (root_snapshot_list : List SnapshotTree) (name : String)
        (new_snapshot_id : Nat),
      (snapshot_manager_create name root_snapshot_list new_snapshot_id).1 =
        [HostCall.createSnapshotTask name]) := by
  refine ⟨?_, ?_, fun _ _ _ => rfl⟩
  · intro root name hdup
    have hsome : (vm_get_snapshot root name).isSome :=
      (vm_get_snapshot_isSome_iff root name).mpr hdup
    simp [vm_create_snapshot, hsome]
  · intro world v u name s hnone _ _ _
    have hmiss : ¬ (vm_get_snapshot (world v) name).isSome := by
      rw [vm_get_snapshot_isSome_iff]
      rintro ⟨x, hx, hxname⟩
      exact hnone x hx hxname
    simp [vm_create_snapshot, hmiss]

/-- C2 witness: creating "s1" on a VM already holding "s1" is rejected
without a call, while creating "s1" on VM 0 (whose tree is empty)
proceeds even though VM 1's tree holds a snapshot named "s1". -/
theorem vm_create_snapshot_duplicate_guard_witness :
    vm_create_snapshot [SnapshotTree.node 1 "s1" []] "s1" = ([], false) ∧
    vm_create_snapshot
      ((fun n => if n = 0 then ([] : List SnapshotTree)
        else [SnapshotTree.node 1 "s1" []]) 0) "s1" =
      ([HostCall.createSnapshotTask "s1"], true) :=
  ⟨vm_create_snapshot_duplicate_guard.1 [SnapshotTree.node 1 "s1" []] "s1"
      ⟨SnapshotTree.node 1 "s1" [], by simp [preorder_forest], rfl⟩,
   vm_create_snapshot_duplicate_guard.2.1
      (fun n => if n = 0 then [] else [SnapshotTree.node 1 "s1" []]) 0 1 "s1"
      (SnapshotTree.node 1 "s1" [])
      (by simp [preorder_forest])
      (by decide)
      (by simp [preorder_forest])
      rfl⟩

/-! ### Device allocation lemmas -/

/-- Helper: in a `≤`-sorted list every element is bounded by the
element at the last position (the one the allocation algorithm
inspects). -/
theorem le_getD_last_of_sorted :
    ∀ (s : List Nat), List.Sorted (· ≤ ·) s →
      ∀ x ∈ s, x ≤ s.getD (s.length - 1) 0
  | [], _, x, hx => absurd hx (List.not_mem_nil x)
  | [a], _, x, hx => by
      simp only [List.mem_singleton] at hx
      subst hx
      simp [List.getD]
  | a :: b :: t, hs, x, hx => by
      have hst : (b :: t).Sorted (· ≤ ·) := hs.of_cons
      have hab : a ≤ b := List.rel_of_sorted_cons hs b (by simp)
      have hgd : (a :: b :: t).getD ((a :: b :: t).length - 1) 0
          = (b :: t).getD ((b :: t).length - 1) 0 := by
        simp [List.getD_cons_succ]
      rcases List.mem_cons.mp hx with rfl | hx'
      · have hb := le_getD_last_of_sorted (b :: t) hst b (by simp)
        rw [hgd]
        exact le_trans hab hb
      · have hx2 := le_getD_last_of_sorted (b :: t) hst x hx'
        rw [hgd]
        exact hx2

/-- Helper: scanning a list headed by the current index moves past the
head. -/
theorem scan_first_gap_cons_self (k : Nat) (l : List Nat) :
    scan_first_gap (k :: l) k = scan_first_gap l (k + 1) := by
  simp [scan_first_gap]

/-- Helper: on a strictly sorted list whose elements are all at least
`index`, the gap-scanning walk returns a value at least `index` that is
not an element of the list (it is the smallest free unit). -/
theorem scan_first_gap_spec :
    ∀ (s : List Nat), List.Sorted (· < ·) s →
      ∀ index : Nat, (∀ x ∈ s, index ≤ x) →
        index ≤ scan_first_gap s index ∧ scan_first_gap s index ∉ s
  | [], _, index, _ => ⟨le_refl index, List.not_mem_nil index⟩
  | u :: rest, hs, index, hge => by
      by_cases hu : u = index
      · subst hu
        have hrest : rest.Sorted (· < ·) := hs.of_cons
        have hgt : ∀ x ∈ rest, u + 1 ≤ x := fun x hx =>
          List.rel_of_sorted_cons hs x hx
        obtain ⟨h1, h2⟩ := scan_first_gap_spec rest hrest (u + 1) hgt
        rw [scan_first_gap_cons_self]
        refine ⟨le_trans (Nat.le_succ u) h1, ?_⟩
        intro hmem
        rcases List.mem_cons.mp hmem with heq | hmem'
        · omega
        · exact h2 hmem'
      · simp only [scan_first_gap, if_neg hu]
        refine ⟨le_refl index, ?_⟩
        intro hmem
        have hiu : index < u :=
          lt_of_le_of_ne (hge u (by simp)) (fun h => hu h.symm)
        rcases List.mem_cons.mp hmem with heq | hmem'
        · exact hu heq.symm
        · have hx := List.rel_of_sorted_cons hs index hmem'
          omega

/-- Helper: the gap-scanning walk started at `k` runs through the
contiguous block `k, k+1, ..., k+n-1` and stops at `k + n` when the
next element differs from `k + n`. -/
theorem scan_first_gap_range' :
    ∀ (n k u : Nat) (rest : List Nat), u ≠ k + n →
      scan_first_gap (List.range' k n ++ u :: rest) k = k + n
  | 0, k, u, rest, hu => by
      have hu' : u ≠ k := by omega
      simp [List.range', scan_first_gap, hu']
  | n + 1, k, u, rest, hu => by
      rw [List.range'_succ, List.cons_append, scan_first_gap_cons_self,
        scan_first_gap_range' n (k + 1) u rest (by omega)]
      omega

/-- Helper: the list `0, 1, ..., n-1, 7` is sorted ascending when
`n ≤ 7`. -/
theorem sorted_range_append_seven (n : Nat) (h : n ≤ 7) :
    List.Sorted (· ≤ ·) (List.range n ++ [7]) := by
  rw [List.Sorted, List.pairwise_append]
  refine ⟨List.sorted_le_range n, List.sorted_singleton 7, ?_⟩
  intro a ha b hb
  simp only [List.mem_range] at ha
  simp only [List.mem_singleton] at hb
  omega

/-- Helper: with the reserved unit 7 occupied and the attached units
forming the contiguous run `0..n-1` (in any order), `n ≤ 6`, the
allocation algorithm returns `n` when under capacity. -/
theorem get_next_free_unit_of_perm_range (max_devices n : Nat)
    (units : List Nat) (hperm : List.Perm units (List.range n))
    (hn : n ≤ 6) (hcap : n + 1 < max_devices) :
    get_next_free_unit max_devices (7 :: units) = some n := by
  have hlen : units.length = n := by
    rw [hperm.length_eq, List.length_range]
  have hs_eq : List.insertionSort (· ≤ ·) (7 :: units) = List.range n ++ [7] := by
    have hp2 : List.Perm (7 :: List.range n) (List.range n ++ [7]) :=
      @List.perm_append_comm Nat [7] (List.range n)
    exact List.eq_of_perm_of_sorted
      ((List.perm_insertionSort (· ≤ ·) (7 :: units)).trans
        ((hperm.cons 7).trans hp2))
      (List.sorted_insertionSort (· ≤ ·) (7 :: units))
      (sorted_range_append_seven n (by omega))
  have hlen2 : (List.range n ++ [7]).length = n + 1 := by simp
  have hgd : (List.range n ++ [7]).getD n 0 = 7 := by
    rw [List.getD_eq_getElem?_getD, List.getElem?_append_right (by simp)]
    simp
  simp only [get_next_free_unit, hs_eq, hlen2, List.length_cons, hlen,
    Nat.add_sub_cancel]
  rw [if_neg (by omega), hgd, if_neg (by omega), List.range_eq_range']
  rw [scan_first_gap_range' n 0 7 [] (by omega)]
  simp

/-- Helper: with the reserved unit 7 occupied and the attached units
being `{0, 2}` (in any order), the allocation algorithm returns the gap
`1` when under capacity. -/
theorem get_next_free_unit_of_perm_gap (max_devices : Nat)
    (units : List Nat) (hperm : List.Perm units [0, 2])
    (hcap : 3 < max_devices) :
    get_next_free_unit max_devices (7 :: units) = some 1 := by
  have hlen : units.length = 2 := hperm.length_eq
  have hs_eq : List.insertionSort (· ≤ ·) (7 :: units) = [0, 2, 7] := by
    have hp2 : List.Perm (7 :: ([0, 2] : List Nat)) [0, 2, 7] := by decide
    exact List.eq_of_perm_of_sorted
      ((List.perm_insertionSort (· ≤ ·) (7 :: units)).trans
        ((hperm.cons 7).trans hp2))
      (List.sorted_insertionSort (· ≤ ·) (7 :: units))
      (by decide)
  simp only [get_next_free_unit, hs_eq, List.length_cons, hlen]
  rw [if_neg (by omega)]
  decide

/-- Helper: when the reserved unit 7 is occupied and the attached units
are duplicate-free and avoid 7, the allocation algorithm never returns
7 (the smallest free unit is never the reserved target number). -/
theorem get_next_free_unit_ne_reserved (max_devices : Nat)
    (units : List Nat) (hnodup : units.Nodup) (h7 : 7 ∉ units) :
    get_next_free_unit max_devices (7 :: units) ≠ some 7 := by
  by_cases hcap : max_devices ≤ (7 :: units).length
  · simp only [get_next_free_unit, if_pos hcap]
    simp
  · have hperm : List.Perm (List.insertionSort (· ≤ ·) (7 :: units))
        (7 :: units) := List.perm_insertionSort (· ≤ ·) (7 :: units)
    have hsorted : List.Sorted (· ≤ ·)
        (List.insertionSort (· ≤ ·) (7 :: units)) :=
      List.sorted_insertionSort (· ≤ ·) (7 :: units)
    have hnodup_s : (List.insertionSort (· ≤ ·) (7 :: units)).Nodup :=
      hperm.nodup_iff.mpr (List.nodup_cons.mpr ⟨h7, hnodup⟩)
    have hstrict : List.Sorted (· < ·)
        (List.insertionSort (· ≤ ·) (7 :: units)) :=
      hsorted.lt_of_le hnodup_s
    have h7s : 7 ∈ List.insertionSort (· ≤ ·) (7 :: units) :=
      hperm.mem_iff.mpr (List.mem_cons_self 7 units)
    simp only [get_next_free_unit, if_neg hcap]
    by_cases hcond : (List.insertionSort (· ≤ ·) (7 :: units)).getD
        ((List.insertionSort (· ≤ ·) (7 :: units)).length - 1) 0 =
        (List.insertionSort (· ≤ ·) (7 :: units)).length - 1
    · rw [if_pos hcond]
      have h7le := le_getD_last_of_sorted _ hsorted 7 h7s
      rw [hcond] at h7le
      simp only [Ne, Option.some.injEq]
      omega
    · rw [if_neg hcond]
      have hscan := (scan_first_gap_spec _ hstrict 0
        (fun x _ => Nat.zero_le x)).2
      simp only [Ne, Option.some.injEq]
      intro heq
      rw [heq] at hscan
      exact hscan h7s

/-- C3 counterexample: a controller whose attached disks occupy the
contiguous run `0..6` (n = 7).  The next free unit computed is `8`,
not `n = 7`: the reserved target number 7 is skipped, so the claim's
"next free unit is `n`" fails at `n = 7`. -/
theorem next_free_unit_reserved_unit_counterexample :
    List.Perm (attached_units controller_run7_demo vm_devices_run7_demo)
      (List.range 7) ∧
    next_free_unit 16 controller_run7_demo vm_devices_run7_demo = some 8 ∧
    ¬ next_free_unit 16 controller_run7_demo vm_devices_run7_demo = some 7 := by
  refine ⟨by decide, by decide, by decide⟩

/-- C3 amended: with the controller's own target number 7 occupying its
reserved unit, (a) for every controller whose attached devices occupy
unit numbers forming a contiguous run `0..n-1` with `n ≤ 6` (so the run
stays clear of the reserved unit) and which is under capacity, the next
free unit is `n`; (b) for occupied units `{0, 2}` the next free unit is
`1`; and (c) whenever the attached units are duplicate-free and avoid
unit 7, unit 7 is never returned as a free unit for a disk. -/
theorem next_free_unit_allocation :
    (∀ (max_devices n : Nat) (c : ScsiController) (vm_devices : List VmDevice),
      c.scsiCtlrUnitNumber = 7 →
      List.Perm (attached_units c vm_devices) (List.range n) →
      n ≤ 6 → n + 1 < max_devices →
      next_free_unit max_devices c vm_devices = some n) ∧
    (∀ (max_devices : Nat) (c : ScsiController) (vm_devices : List VmDevice),
      c.scsiCtlrUnitNumber = 7 →
      List.Perm (attached_units c vm_devices) [0, 2] →
      3 < max_devices →
      next_free_unit max_devices c vm_devices = some 1) ∧
    (∀ (max_devices : Nat) (c : ScsiController) (vm_devices : List VmDevice),
      c.scsiCtlrUnitNumber = 7 →
      (attached_units c vm_devices).Nodup →
      7 ∉ attached_units c vm_devices →
      next_free_unit max_devices c vm_devices ≠ some 7) := by
  have hused : ∀ (c : ScsiController) (vm_devices : List VmDevice),
      c.scsiCtlrUnitNumber = 7 →
      get_used_units c vm_devices = 7 :: attached_units c vm_devices := by
    intro c vm_devices hc7
    simp [get_used_units, attached_units, hc7]
  refine ⟨?_, ?_, ?_⟩
  · intro max_devices n c vm_devices hc7 hperm hn hcap
    rw [next_free_unit, hused c vm_devices hc7]
    exact get_next_free_unit_of_perm_range max_devices n _ hperm hn hcap
  · intro max_devices c vm_devices hc7 hperm hcap
    rw [next_free_unit, hused c vm_devices hc7]
    exact get_next_free_unit_of_perm_gap max_devices _ hperm hcap
  · intro max_devices c vm_devices hc7 hnodup h7
    rw [next_free_unit, hused c vm_devices hc7]
    exact get_next_free_unit_ne_reserved max_devices _ hnodup h7

/-- C3 witness: the three parts of the theorem applied to concrete
controllers: a `0..2` run gives unit 3, occupied `{0, 2}` gives unit 1,
and the run `0..2` never yields the reserved unit 7. -/
theorem next_free_unit_allocation_witness :
    next_free_unit 16 controller_run3_demo vm_devices_run3_demo = some 3 ∧
    next_free_unit 16 controller_gap_demo vm_devices_gap_demo = some 1 ∧
    next_free_unit 16 controller_run3_demo vm_devices_run3_demo ≠ some 7 :=
  ⟨next_free_unit_allocation.1 16 3 controller_run3_demo vm_devices_run3_demo
      (by decide) (by decide) (by decide) (by decide),
   next_free_unit_allocation.2.1 16 controller_gap_demo vm_devices_gap_demo
      (by decide) (by decide) (by decide),
   next_free_unit_allocation.2.2 16 controller_run3_demo vm_devices_run3_demo
      (by decide) (by decide) (by decide)⟩

/-- C4: a controller already holding its maximum device count (the
capability-metadata maximum, an opaque parameter here since
`find_device_option_by_type` is host metadata) makes unit allocation
fail by yielding no unit number (`None`) rather than wrapping; below
capacity a unit number is always produced. -/
theorem next_free_unit_capacity_exceeded (max_devices : Nat)
    (c : ScsiController) (vm_devices : List VmDevice)
    (used_units : List Nat)
    (hfull : max_devices ≤ (get_used_units c vm_devices).length)
    (hfull' : max_devices ≤ used_units.length) :
    next_free_unit max_devices c vm_devices = none ∧
    get_next_free_unit max_devices used_units = none ∧
    (∀ us : List Nat, us.length < max_devices →
      (get_next_free_unit max_devices us).isSome) := by
  refine ⟨?_, ?_, ?_⟩
  · simp [next_free_unit, get_next_free_unit, hfull]
  · simp [get_next_free_unit, hfull']
  · intro us hus
    have h : ¬ max_devices ≤ us.length := by omega
    simp only [get_next_free_unit, if_neg h]
    split <;> simp

/-- C4 witness: the theorem applied to a capacity of 2 already filled
by the controller's own unit plus one disk; a single-element used list
is below capacity and still yields a unit. -/
theorem next_free_unit_capacity_exceeded_witness :
    next_free_unit 2 controller_full_demo vm_devices_full_demo = none ∧
    get_next_free_unit 2 [7, 0] = none ∧
    (∀ us : List Nat, us.length < 2 → (get_next_free_unit 2 us).isSome) :=
  next_free_unit_capacity_exceeded 2 controller_full_demo vm_devices_full_demo
    [7, 0] (by decide) (by decide)

end VTools
